import Mathlib

set_option linter.unusedVariables false

namespace CompanyMatcher

/-! Shallow embedding of the identity-resolution and enrichment core of the
genai-company-matcher repository: the `Company` entity model
(src/core/models.py), ISIN normalisation and matching
(src/core/matching_service.py), the SQLite-backed identity store
(src/infrastructure/sqlite_repository.py), the enrichment orchestrator and
the Wikidata knowledge-base client (src/core/enrichment_service.py). -/

/-- Python exception classes raised by the embedded code paths. -/
inductive PyErr where
  | valueError (msg : String)
  | indexError
  | keyError
  | attributeError
  | typeError
  deriving DecidableEq

/-- Value stored in a nullable SQLite TEXT column: SQL NULL (read back as
Python `None`) or a string. -/
inductive SqlValue where
  | null
  | text (s : String)
  deriving DecidableEq

/-- Reads a column value into a `str`-annotated dataclass field.  SQL NULL is
read as the empty string: the embedded code only ever tests these fields for
truthiness or interpolates them when non-empty, and `None` and `""` are both
falsy, so the collapse is unobservable in every embedded path. -/
def SqlValue.asStr : SqlValue → String
  | .null => ""
  | .text s => s

/-- Row produced by sqlite3 with `row_factory = sqlite3.Row`: an ordered list
of column-name/value pairs.  Indexing by a key the query did not select raises
`IndexError`. -/
abbrev Row := List (String × SqlValue)

/-- Row indexing, `row[key]`: `sqlite3.Row` raises `IndexError` for an unknown
key. -/
def rowGet (row : Row) (key : String) : Except PyErr SqlValue :=
  match row.lookup key with
  | some v => .ok v
  | none => .error .indexError

/-- Embedding of the `Company` dataclass (src/core/models.py); field types
follow the dataclass annotations. -/
structure Company where
  lei : String
  registration_status : String
  entity_status : String
  legal_name : String
  city : String
  country : String
  category : String
  description : String := ""
  sector_labels : List String := []
  deriving DecidableEq

/-- Company.has_sector_data: `bool(self.sector_labels or self.description)`. -/
def Company.has_sector_data (c : Company) : Bool :=
  !(c.sector_labels == []) || !(c.description == "")

/-- Company.enrich: overwrites `sector_labels` and `description` with the
given values. -/
def Company.enrich (c : Company) (labels : List String) (description : String) :
    Company :=
  { c with sector_labels := labels, description := description }

/-- Company.embedding_text (src/core/models.py lines 30-43), translated
f-string by f-string. -/
def Company.embedding_text (c : Company) : String :=
  let name := c.legal_name
  let city := c.city
  let country := c.country
  let category := c.category
  let description := c.description
  let location := s!"located in {city}, {country}"
  let label_string :=
    if !(c.sector_labels == []) then String.intercalate " ," c.sector_labels else ""
  if !(c.sector_labels == []) && !(c.description == "") then
    s!"{name} is a {description}, {location}. It belongs in {label_string}."
  else if !(c.description == "") then
    s!"{name} is a {description}, {location}."
  else if !(c.sector_labels == []) then
    s!"Company {name}, {location}. It belongs in {label_string}."
  else
    s!"Risk characteristics for company {name}. Located in {city}, {country}. Category: {category}."

/-- Template 1 of Company.embedding_text: description and sector labels both
present. -/
def embeddingBoth (c : Company) : String :=
  let name := c.legal_name
  let city := c.city
  let country := c.country
  let description := c.description
  let location := s!"located in {city}, {country}"
  let label_string := String.intercalate " ," c.sector_labels
  s!"{name} is a {description}, {location}. It belongs in {label_string}."

/-- Template 2 of Company.embedding_text: description only. -/
def embeddingDescOnly (c : Company) : String :=
  let name := c.legal_name
  let city := c.city
  let country := c.country
  let description := c.description
  let location := s!"located in {city}, {country}"
  s!"{name} is a {description}, {location}."

/-- Template 3 of Company.embedding_text: sector labels only. -/
def embeddingLabelsOnly (c : Company) : String :=
  let name := c.legal_name
  let city := c.city
  let country := c.country
  let location := s!"located in {city}, {country}"
  let label_string := String.intercalate " ," c.sector_labels
  s!"Company {name}, {location}. It belongs in {label_string}."

/-- Template 4 of Company.embedding_text: the fallback when neither is
present. -/
def embeddingFallback (c : Company) : String :=
  let name := c.legal_name
  let city := c.city
  let country := c.country
  let category := c.category
  s!"Risk characteristics for company {name}. Located in {city}, {country}. Category: {category}."

/-- Company.from_row (src/core/models.py lines 49-69).  `loads` stands for
`json.loads` specialised to the JSON shape this column stores (a list of
strings); `none` models a `json.JSONDecodeError`, which the source converts to
an empty label list.  The values are read in the source's evaluation order:
`sector_labels` first, then the constructor keyword arguments. -/
def Company.from_row (loads : String → Option (List String)) (row : Row) :
    Except PyErr Company := do
  let raw_labels ← rowGet row "sector_labels"
  let labels : List String :=
    match raw_labels with
    | .text s => match loads s with | some l => l | none => []
    | .null => []
  let lei ← rowGet row "lei"
  let registration_status ← rowGet row "registration_status"
  let entity_status ← rowGet row "entity_status"
  let legal_name ← rowGet row "legal_name"
  let city ← rowGet row "city"
  let country ← rowGet row "country"
  let category ← rowGet row "category"
  let description ← rowGet row "description"
  return { lei := lei.asStr
           registration_status := registration_status.asStr
           entity_status := entity_status.asStr
           legal_name := legal_name.asStr
           city := city.asStr
           country := country.asStr
           category := category.asStr
           description := description.asStr
           sector_labels := labels }

/-- Row holding every column `Company.from_row` reads, in the order of the
`lei_metadata` schema of the specification (section 6). -/
def fullRow (lei rs es ln ci co ca de raw : SqlValue) : Row :=
  [("lei", lei), ("registration_status", rs), ("entity_status", es),
   ("legal_name", ln), ("city", ci), ("country", co), ("category", ca),
   ("description", de), ("sector_labels", raw)]

/-! ISIN normalisation (src/core/matching_service.py). -/

/-- Characters Python `str.isspace` treats as whitespace. -/
def pyIsSpace (c : Char) : Bool :=
  c.val == 0x09 || c.val == 0x0a || c.val == 0x0b || c.val == 0x0c ||
  c.val == 0x0d || c.val == 0x1c || c.val == 0x1d || c.val == 0x1e ||
  c.val == 0x1f || c.val == 0x20 || c.val == 0x85 || c.val == 0xa0 ||
  c.val == 0x1680 || (0x2000 ≤ c.val && c.val ≤ 0x200a) ||
  c.val == 0x2028 || c.val == 0x2029 || c.val == 0x202f ||
  c.val == 0x205f || c.val == 0x3000

/-- Python `str.strip()`: removes leading and trailing whitespace. -/
def pyStrip (s : String) : String :=
  String.mk (((s.toList.dropWhile pyIsSpace).reverse.dropWhile pyIsSpace).reverse)

/-- Python `str.upper()` restricted to the ASCII range, which is all the ISIN
validator accepts downstream. -/
def pyUpper (s : String) : String :=
  String.mk (s.toList.map Char.toUpper)

/-- ASCII upper-case letter. -/
def isAZ (c : Char) : Bool := 'A' ≤ c && c ≤ 'Z'

/-- ASCII digit. -/
def isDigit09 (c : Char) : Bool := '0' ≤ c && c ≤ '9'

/-- The anchored regular expression `[A-Z]{2}[A-Z0-9]{9}[0-9]` used by
`ISIN_REGEX.match`: two letters, nine alphanumerics, one trailing digit. -/
def isinRegexMatch (s : String) : Bool :=
  let cs := s.toList
  cs.length == 12 && (cs.take 2).all isAZ &&
    ((cs.drop 2).take 9).all (fun c => isAZ c || isDigit09 c) &&
    (cs.drop 11).all isDigit09

/-- The whitespace-and-hyphen stripping plus upper-casing that
`_validate_normalize_isin` applies after NFKC normalisation and trimming. -/
def cleanedIsin (nfkc : String → String) (raw : String) : String :=
  pyUpper (String.mk ((pyStrip (nfkc raw)).toList.filter
    (fun c => !pyIsSpace c && c != '-')))

/-- MatchingService._validate_normalize_isin (src/core/matching_service.py
lines 113-145).  `nfkc` stands for `unicodedata.normalize("NFKC", ...)`, an
external library call; it is the identity on ASCII input. -/
def validate_normalize_isin (nfkc : String → String) (isin : String) :
    Except PyErr String :=
  if isin == "" then .error (.valueError "ISIN is None.")
  else
    if pyStrip (nfkc isin) == "" then
      .error (.valueError "ISIN is empty after trimming.")
    else
      let isin := cleanedIsin nfkc isin
      let n := isin.length
      if !(n == 12) then
        .error (.valueError s!"ISIN length mismatch, expected 12, got {n}.")
      else if !(isinRegexMatch isin) then
        .error (.valueError "ISIN format not consistent with expected format: 2 letters, 9 alphanumeric characters, and a final digit.")
      else .ok isin

/-- MatchingService.find_matches (src/core/matching_service.py lines 52-69).
After normalising, the source evaluates `self.find_isin(isin=isin)`;
`MatchingService` defines `find_by_isin` but no attribute `find_isin`, so the
attribute lookup raises `AttributeError` and the rest of the method body (the
vector-index query and the hydration loop) is unreachable. -/
def find_matches (nfkc : String → String) (isin : String) (k : Nat) :
    Except PyErr (List Company × List Float) := do
  let _isin ← validate_normalize_isin nfkc isin
  throw .attributeError

/-! The SQLite identity store (src/infrastructure/sqlite_repository.py). -/

/-- Row of the `lei_metadata` table as the source's `init_db` creates it:
seven columns, no description or sector columns. -/
structure MetaRow where
  lei : String
  registration_status : String
  entity_status : String
  legal_name : String
  city : String
  country : String
  category : String
  deriving DecidableEq

/-- Row of the `wikidata_cache` table. -/
structure CacheRow where
  lei : String
  wikidata_id : String
  description : String
  last_updated : String
  deriving DecidableEq

/-- Row of the `company_sectors` table. -/
structure SectorRow where
  lei : String
  sector_label : String
  sector_qid : String
  deriving DecidableEq

/-- One `{'label': ..., 'qid': ...}` entry of the `sectors` argument of
`save_wikidata_information`. -/
structure SectorInfo where
  label : String
  qid : String
  deriving DecidableEq

/-- State of the SQLite database. -/
structure Db where
  isin_lei_map : List (String × String)
  lei_metadata : List MetaRow
  wikidata_cache : List CacheRow
  company_sectors : List SectorRow
  deriving DecidableEq

/-- The row a `SELECT` of `COMPANY_COLUMNS` yields for a metadata row: exactly
the seven selected columns, so `row["description"]` and
`row["sector_labels"]` raise `IndexError`. -/
def metaRowToRow (m : MetaRow) : Row :=
  [("lei", .text m.lei), ("registration_status", .text m.registration_status),
   ("entity_status", .text m.entity_status), ("legal_name", .text m.legal_name),
   ("city", .text m.city), ("country", .text m.country),
   ("category", .text m.category)]

/-- SqliteCompanyRepository.get_by_isin: join of `isin_lei_map` and
`lei_metadata`, `fetchone`, `ValueError` when no row matches. -/
def sqlite_get_by_isin (loads : String → Option (List String)) (db : Db)
    (isin : String) : Except PyErr Company :=
  let rows := db.isin_lei_map.foldr
    (fun im acc =>
      (if im.1 == isin then
        (db.lei_metadata.filter (fun m => m.lei == im.2)).map metaRowToRow
      else []) ++ acc) []
  match rows with
  | [] => .error (.valueError s!"No company metadata found for ISIN {isin}")
  | row :: _ => Company.from_row loads row

/-- SqliteCompanyRepository.get_by_isins (lines 80-105): one `IN` query, rows
in join order (no `ORDER BY`, modelled as the nested-loop order of the join),
one `Company.from_row` per returned row.  Input ISINs with no matching row
produce no output row at all. -/
def sqlite_get_by_isins (loads : String → Option (List String)) (db : Db)
    (isins : List String) : Except PyErr (List Company) :=
  if isins == [] then .ok []
  else
    let rows := db.lei_metadata.foldr
      (fun m acc =>
        ((db.isin_lei_map.filter
            (fun im => im.2 == m.lei && isins.contains im.1)).map
          (fun _ => metaRowToRow m)) ++ acc) []
    rows.mapM (Company.from_row loads)

/-- SqliteCompanyRepository.get_by_lei: direct `lei_metadata` lookup,
`ValueError` when absent. -/
def sqlite_get_by_lei (loads : String → Option (List String)) (db : Db)
    (lei : String) : Except PyErr Company :=
  match (db.lei_metadata.filter (fun m => m.lei == lei)).map metaRowToRow with
  | [] => .error (.valueError s!"Found no company data matching to LEI: {lei}")
  | row :: _ => Company.from_row loads row

/-- SqliteCompanyRepository.save_wikidata_information (lines 167-183):
`INSERT OR REPLACE` on the `lei` primary key of `wikidata_cache` (modelled as
delete-then-append), then `DELETE` plus `executemany INSERT` on
`company_sectors`.  `now` stands for `datetime.now().isoformat()`. -/
def save_wikidata_information (db : Db) (lei wikidata_id description : String)
    (sectors : List SectorInfo) (now : String) : Db :=
  { db with
    wikidata_cache :=
      (db.wikidata_cache.filter (fun r => !(r.lei == lei))) ++
        [{ lei := lei, wikidata_id := wikidata_id, description := description,
           last_updated := now }]
    company_sectors :=
      (db.company_sectors.filter (fun r => !(r.lei == lei))) ++
        sectors.map (fun s =>
          { lei := lei, sector_label := s.label, sector_qid := s.qid }) }

/-- CompanyRepository.enrich_company as SqliteCompanyRepository inherits it:
the repository never overrides the Protocol method, whose body is the bare
expression `...`, so the call performs no database write and returns `None`. -/
def enrich_company (db : Db) (lei : String) (description : String)
    (labels : List String) : Db :=
  db

/-! The enrichment orchestrator (src/core/enrichment_service.py).  The
repository and the knowledge-base client are injected collaborators; the
orchestrator is embedded over them, and every external call it issues is
recorded in an effect trace. -/

/-- One `{'label': ...}` entry of the `sectors` list of a knowledge-base
result. -/
structure WdSector where
  label : String
  deriving DecidableEq

/-- The dictionary `_query_wikidata` hands back to the orchestrator:
`{'wikidata_id': ..., 'description': ..., 'sectors': [...]}`. -/
structure WdData where
  wikidata_id : Option String
  description : Option String
  sectors : List WdSector
  deriving DecidableEq

/-- Python truthiness of an optional string: `None` and `""` are falsy. -/
def optStrTruthy : Option String → Bool
  | none => false
  | some s => !(s == "")

/-- Python `x or ""` for an optional string. -/
def pyOrEmpty : Option String → String
  | none => ""
  | some s => s

/-- External calls the orchestrator can issue. -/
inductive Eff where
  | wikidataQuery (lei : String)
  | wikidataBatchQuery (leis : List String)
  | repoEnrich (lei : String) (description : String) (labels : List String)
  deriving DecidableEq

/-- The injected CompanyRepository, as the orchestrator's code uses it: each
lookup either raises, returns `None`, or returns a company. -/
structure RepoOps where
  get_by_isin : String → Except PyErr (Option Company)
  get_by_isins : List String → Except PyErr (List (Option Company))
  get_by_lei : String → Except PyErr (Option Company)

/-- EnrichmentService._ensure_enriched_company_by_isin (lines 44-62).  `qw`
is the single-item knowledge-base query `_query_wikidata`. -/
def ensure_enriched_company_by_isin (repo : RepoOps) (qw : String → WdData)
    (isin : String) : Except PyErr (Option Company × List Eff) := do
  let company? ← repo.get_by_isin isin
  match company? with
  | none => return (none, [])
  | some company =>
    if company.has_sector_data then
      return (some company, [])
    else
      let wikidata_data := qw company.lei
      if optStrTruthy wikidata_data.wikidata_id then
        let description := pyOrEmpty wikidata_data.description
        let labels := wikidata_data.sectors.map WdSector.label
        let company := company.enrich labels description
        return (some company,
          [Eff.wikidataQuery company.lei,
           Eff.repoEnrich company.lei description labels])
      else
        return (some company, [Eff.wikidataQuery company.lei])

/-- EnrichmentService._ensure_enriched_company_by_lei (lines 107-125). -/
def ensure_enriched_company_by_lei (repo : RepoOps) (qw : String → WdData)
    (lei : String) : Except PyErr (Option Company × List Eff) := do
  let company? ← repo.get_by_lei lei
  match company? with
  | none => return (none, [])
  | some company =>
    if company.has_sector_data then
      return (some company, [])
    else
      let wikidata_data := qw company.lei
      if optStrTruthy wikidata_data.wikidata_id then
        let description := pyOrEmpty wikidata_data.description
        let labels := wikidata_data.sectors.map WdSector.label
        let company := company.enrich labels description
        return (some company,
          [Eff.wikidataQuery company.lei,
           Eff.repoEnrich company.lei description labels])
      else
        return (some company, [Eff.wikidataQuery company.lei])

/-- The chunking of `_chunked_query_wikidata`: `range(0, len(leis),
chunk_size)` slices. -/
def chunksOf (size : Nat) (leis : List String) : List (List String) :=
  if h : size = 0 then []
  else if h2 : leis = [] then []
  else leis.take size :: chunksOf size (leis.drop size)
termination_by leis.length
decreasing_by
  simp only [List.length_drop]
  have h3 : 0 < leis.length := by
    cases leis with
    | nil => exact absurd rfl h2
    | cons a t => simp
  omega

/-- Assignment `d[k] = v` on a Python dict modelled as an association list in
insertion order. -/
def dictInsert (d : List (String × WdData)) (k : String) (v : WdData) :
    List (String × WdData) :=
  if d.any (fun p => p.1 == k) then
    d.map (fun p => if p.1 == k then (p.1, v) else p)
  else d ++ [(k, v)]

/-- Python `dict.update`. -/
def dictUpdate (d new : List (String × WdData)) : List (String × WdData) :=
  new.foldl (fun acc p => dictInsert acc p.1 p.2) d

/-- EnrichmentService._chunked_query_wikidata (lines 174-184), embedded over
the injected batch query `qwb`; also returns the one-call-per-chunk effect
trace. -/
def chunked_query_wikidata (qwb : List String → List (String × WdData))
    (chunk_size : Nat) (leis : List String) :
    List (String × WdData) × List Eff :=
  let chunks := chunksOf chunk_size leis
  (chunks.foldl (fun acc c => dictUpdate acc (qwb c)) [],
   chunks.map Eff.wikidataBatchQuery)

/-- EnrichmentService._ensure_enriched_company_by_isins (lines 64-105): one
batched repository call, partition into already-enriched and
needs-enrichment, one chunked knowledge-base call for the latter, per-entity
enrich and persist, positional write-back via the recorded indices. -/
def ensure_enriched_company_by_isins (repo : RepoOps)
    (qwb : List String → List (String × WdData)) (batch_size : Nat)
    (isins : List String) : Except PyErr (List (Option Company) × List Eff) := do
  let companies ← repo.get_by_isins isins
  let needing := companies.enum.filterMap (fun p =>
    match p.2 with
    | none => none
    | some c => if c.has_sector_data then none else some (p.1, c))
  if needing == [] then
    return (companies, [])
  else
    let leis_to_query := needing.map (fun p => p.2.lei)
    let chunked := chunked_query_wikidata qwb batch_size leis_to_query
    let out := needing.foldl
      (fun (acc : List (Option Company) × List Eff) p =>
        let idx := p.1
        let company := p.2
        match List.lookup company.lei chunked.1 with
        | some wikidata_data =>
          if optStrTruthy wikidata_data.wikidata_id then
            let description := pyOrEmpty wikidata_data.description
            let labels := wikidata_data.sectors.map WdSector.label
            let company := company.enrich labels description
            (acc.1.set idx (some company),
             acc.2 ++ [Eff.repoEnrich company.lei description labels])
          else (acc.1.set idx (some company), acc.2)
        | none => (acc.1.set idx (some company), acc.2))
      (companies, [])
    return (out.1, chunked.2 ++ out.2)

/-- EnrichmentService.get_enriched_company_by_isin: delegates. -/
def get_enriched_company_by_isin (repo : RepoOps) (qw : String → WdData)
    (isin : String) : Except PyErr (Option Company × List Eff) :=
  ensure_enriched_company_by_isin repo qw isin

/-- EnrichmentService.get_enriched_company_by_lei: delegates. -/
def get_enriched_company_by_lei (repo : RepoOps) (qw : String → WdData)
    (lei : String) : Except PyErr (Option Company × List Eff) :=
  ensure_enriched_company_by_lei repo qw lei

/-- EnrichmentService.get_enriched_companies_by_isin: delegates. -/
def get_enriched_companies_by_isin (repo : RepoOps)
    (qwb : List String → List (String × WdData)) (batch_size : Nat)
    (isins : List String) : Except PyErr (List (Option Company) × List Eff) :=
  ensure_enriched_company_by_isins repo qwb batch_size isins

/-- The SQLite repository wired in as the orchestrator's collaborator.  Its
lookups either raise or return a company object (never `None`); the batched
lookup returns plain companies, wrapped here as the always-truthy values the
orchestrator's `if not company` test sees. -/
def sqliteRepo (loads : String → Option (List String)) (db : Db) : RepoOps where
  get_by_isin := fun isin => (sqlite_get_by_isin loads db isin).map some
  get_by_isins := fun isins =>
    (sqlite_get_by_isins loads db isins).map (fun l => l.map some)
  get_by_lei := fun lei => (sqlite_get_by_lei loads db lei).map some

/-! The wire-level knowledge-base client (_query_wikidata and
_query_wikidata_batch, src/core/enrichment_service.py lines 127-243),
embedded over the decoded JSON value of the HTTP response, with Python's
dynamic dictionary and list operations made explicit so that malformed
response shapes behave exactly as in the source. -/

/-- A JSON value as `response.json()` returns it. -/
inductive Json where
  | null
  | str (s : String)
  | num (n : Int)
  | bool (b : Bool)
  | arr (elems : List Json)
  | obj (fields : List (String × Json))

mutual

/-- Decidable equality of JSON values. -/
def Json.decEq : (a b : Json) → Decidable (a = b)
  | .null, .null => .isTrue rfl
  | .null, .str _ => .isFalse (by simp)
  | .null, .num _ => .isFalse (by simp)
  | .null, .bool _ => .isFalse (by simp)
  | .null, .arr _ => .isFalse (by simp)
  | .null, .obj _ => .isFalse (by simp)
  | .str _, .null => .isFalse (by simp)
  | .str a, .str b =>
    if h : a = b then .isTrue (by rw [h]) else .isFalse (by simp [h])
  | .str _, .num _ => .isFalse (by simp)
  | .str _, .bool _ => .isFalse (by simp)
  | .str _, .arr _ => .isFalse (by simp)
  | .str _, .obj _ => .isFalse (by simp)
  | .num _, .null => .isFalse (by simp)
  | .num _, .str _ => .isFalse (by simp)
  | .num a, .num b =>
    if h : a = b then .isTrue (by rw [h]) else .isFalse (by simp [h])
  | .num _, .bool _ => .isFalse (by simp)
  | .num _, .arr _ => .isFalse (by simp)
  | .num _, .obj _ => .isFalse (by simp)
  | .bool _, .null => .isFalse (by simp)
  | .bool _, .str _ => .isFalse (by simp)
  | .bool _, .num _ => .isFalse (by simp)
  | .bool a, .bool b =>
    if h : a = b then .isTrue (by rw [h]) else .isFalse (by simp [h])
  | .bool _, .arr _ => .isFalse (by simp)
  | .bool _, .obj _ => .isFalse (by simp)
  | .arr _, .null => .isFalse (by simp)
  | .arr _, .str _ => .isFalse (by simp)
  | .arr _, .num _ => .isFalse (by simp)
  | .arr _, .bool _ => .isFalse (by simp)
  | .arr xs, .arr ys =>
    match Json.decEqList xs ys with
    | .isTrue h => .isTrue (by rw [h])
    | .isFalse h => .isFalse (by simp [h])
  | .arr _, .obj _ => .isFalse (by simp)
  | .obj _, .null => .isFalse (by simp)
  | .obj _, .str _ => .isFalse (by simp)
  | .obj _, .num _ => .isFalse (by simp)
  | .obj _, .bool _ => .isFalse (by simp)
  | .obj _, .arr _ => .isFalse (by simp)
  | .obj xs, .obj ys =>
    match Json.decEqFields xs ys with
    | .isTrue h => .isTrue (by rw [h])
    | .isFalse h => .isFalse (by simp [h])

/-- Decidable equality of JSON value lists. -/
def Json.decEqList : (a b : List Json) → Decidable (a = b)
  | [], [] => .isTrue rfl
  | [], _ :: _ => .isFalse (by simp)
  | _ :: _, [] => .isFalse (by simp)
  | x :: xs, y :: ys =>
    match Json.decEq x y with
    | .isFalse h => .isFalse (by simp [h])
    | .isTrue h =>
      match Json.decEqList xs ys with
      | .isTrue h2 => .isTrue (by rw [h, h2])
      | .isFalse h2 => .isFalse (by simp [h2])

/-- Decidable equality of JSON object field lists. -/
def Json.decEqFields : (a b : List (String × Json)) → Decidable (a = b)
  | [], [] => .isTrue rfl
  | [], _ :: _ => .isFalse (by simp)
  | _ :: _, [] => .isFalse (by simp)
  | (k1, v1) :: xs, (k2, v2) :: ys =>
    if hk : k1 = k2 then
      match Json.decEq v1 v2 with
      | .isFalse h => .isFalse (by simp [h])
      | .isTrue h =>
        match Json.decEqFields xs ys with
        | .isTrue h2 => .isTrue (by rw [hk, h, h2])
        | .isFalse h2 => .isFalse (by simp [h2])
    else .isFalse (by simp [hk])

end

instance : DecidableEq Json := Json.decEq

/-- Python truthiness of a decoded JSON value. -/
def Json.truthy : Json → Bool
  | .null => false
  | .str s => !(s == "")
  | .num n => !(n == 0)
  | .bool b => b
  | .arr l => !(l == [])
  | .obj l => !(l == [])

/-- Python `x.get(key, default)`: only dictionaries have `.get`; on any other
value the attribute lookup raises `AttributeError`. -/
def Json.dictGet (j : Json) (key : String) (dflt : Json) : Except PyErr Json :=
  match j with
  | .obj fields => .ok ((fields.lookup key).getD dflt)
  | _ => .error .attributeError

/-- Python `x[key]` for a string key: `KeyError` on a missing dictionary key,
`TypeError` on any non-dictionary. -/
def Json.subscriptStr (j : Json) (key : String) : Except PyErr Json :=
  match j with
  | .obj fields =>
    match fields.lookup key with
    | some v => .ok v
    | none => .error .keyError
  | _ => .error .typeError

/-- Python `x[0]`: list indexing (IndexError when empty), string indexing,
`KeyError` on a dictionary without key `0`, `TypeError` otherwise. -/
def Json.subscriptZero (j : Json) : Except PyErr Json :=
  match j with
  | .arr [] => .error .indexError
  | .arr (x :: _) => .ok x
  | .str s =>
    match s.toList with
    | [] => .error .indexError
    | c :: _ => .ok (.str (String.mk [c]))
  | .obj _ => .error .keyError
  | _ => .error .typeError

/-- Python substring test `sub in s`. -/
def strContainsSub (s sub : String) : Bool :=
  sub == "" || (s.splitOn sub).length ≥ 2

/-- Python `key in x`: key membership for dictionaries, element membership
for lists, substring test for strings, `TypeError` otherwise. -/
def Json.hasMember (key : String) (j : Json) : Except PyErr Bool :=
  match j with
  | .obj fields => .ok (fields.any (fun p => p.1 == key))
  | .arr xs => .ok (xs.contains (Json.str key))
  | .str s => .ok (strContainsSub s key)
  | _ => .error .typeError

/-- Python iteration `for x in j`: lists yield elements, dictionaries yield
their keys, strings yield one-character strings, anything else raises
`TypeError`. -/
def Json.iter (j : Json) : Except PyErr (List Json) :=
  match j with
  | .arr xs => .ok xs
  | .obj fields => .ok (fields.map (fun p => Json.str p.1))
  | .str s => .ok (s.toList.map (fun c => Json.str (String.mk [c])))
  | _ => .error .typeError

/-- Python `str.split(sep)` for a one-character separator, over the string's
characters. -/
def splitOnChar (sep : Char) : List Char → List (List Char)
  | [] => [[]]
  | c :: rest =>
    let r := splitOnChar sep rest
    if c == sep then [] :: r
    else match r with
      | [] => [[c]]
      | g :: gs => (c :: g) :: gs

/-- The `[-1]` indexing of a split result, which is never empty. -/
def lastD {α : Type} (dflt : α) : List α → α
  | [] => dflt
  | [x] => x
  | _ :: rest => lastD dflt rest

/-- Python `x.split("/")[-1]`: only strings have `.split`. -/
def Json.splitSlashLast (j : Json) : Except PyErr Json :=
  match j with
  | .str s => .ok (.str (String.mk (lastD [] (splitOnChar '/' s.toList))))
  | _ => .error .attributeError

/-- Python hashability: lists and dictionaries cannot be dictionary keys. -/
def Json.hashable : Json → Bool
  | .arr _ => false
  | .obj _ => false
  | _ => true

/-- Decidable equality of computation outcomes, used to evaluate concrete
runs of the embedded client. -/
instance {e a : Type} [DecidableEq e] [DecidableEq a] :
    DecidableEq (Except e a) := fun x y =>
  match x, y with
  | .ok v, .ok w =>
    if h : v = w then .isTrue (by rw [h]) else .isFalse (by simp [h])
  | .error v, .error w =>
    if h : v = w then .isTrue (by rw [h]) else .isFalse (by simp [h])
  | .ok _, .error _ => .isFalse (by simp)
  | .error _, .ok _ => .isFalse (by simp)

/-- Outcome of `self.session.get(...)` after the adapter's retries: a
transport-level `RequestException`, or an HTTP response carrying a status
code and a body that either decodes as JSON or does not (`none`; the
resulting `JSONDecodeError` is a `RequestException` in modern requests). -/
inductive HttpOutcome where
  | transportError
  | response (status : Nat) (body : Option Json)

/-- The empty result `{'wikidata_id': None, 'description': None,
'sectors': []}`. -/
def emptyWdJson : Json :=
  .obj [("wikidata_id", .null), ("description", .null), ("sectors", .arr [])]

/-- Body of the `try` block of `_query_wikidata` after a decoded JSON value
is available: the source's expressions in their evaluation order. -/
def wikidataFromData (data : Json) : Except PyErr Json := do
  let results ← data.dictGet "results" (.obj [])
  let bindings ← results.dictGet "bindings" (.arr [])
  if !bindings.truthy then
    return emptyWdJson
  else
    let b0 ← bindings.subscriptZero
    let item ← b0.subscriptStr "item"
    let itemValue ← item.subscriptStr "value"
    let wikidata_id ← itemValue.splitSlashLast
    let descDict ← b0.dictGet "itemDescription" (.obj [])
    let description ← descDict.dictGet "value" .null
    let bs ← bindings.iter
    let sectors ← bs.foldlM (fun acc b => do
      let hasInd ← Json.hasMember "industryLabel" b
      if hasInd then
        let il ← b.subscriptStr "industryLabel"
        let v ← il.subscriptStr "value"
        return acc ++ [Json.obj [("label", v)]]
      else
        return acc) ([] : List Json)
    return Json.obj [("wikidata_id", wikidata_id),
                     ("description", description),
                     ("sectors", .arr sectors)]

/-- EnrichmentService._query_wikidata (lines 127-172): transport errors,
`raise_for_status` on 4xx/5xx, undecodable bodies and `KeyError` degrade to
the empty result; any other exception propagates, exactly as the source's
`except (requests.RequestException, KeyError)` clause behaves. -/
def query_wikidata (resp : HttpOutcome) : Except PyErr Json :=
  match resp with
  | .transportError => .ok emptyWdJson
  | .response status body =>
    if 400 ≤ status ∧ status < 600 then .ok emptyWdJson
    else
      match body with
      | none => .ok emptyWdJson
      | some data =>
        match wikidataFromData data with
        | .ok j => .ok j
        | .error .keyError => .ok emptyWdJson
        | .error e => .error e

/-- Assignment into the `results` dictionary of the batch query; its keys are
the decoded `lei` binding values, so they are JSON values. -/
def jDictInsert (d : List (Json × Json)) (k v : Json) : List (Json × Json) :=
  if d.any (fun p => p.1 == k) then
    d.map (fun p => if p.1 == k then (p.1, v) else p)
  else d ++ [(k, v)]

/-- Membership test on the batch `results` dictionary. -/
def jDictMem (d : List (Json × Json)) (k : Json) : Bool :=
  d.any (fun p => p.1 == k)

/-- Lookup on the batch `results` dictionary. -/
def jDictFind (d : List (Json × Json)) (k : Json) : Option Json :=
  (d.find? (fun p => p.1 == k)).map (fun p => p.2)

/-- The statement `results[lei]["sectors"].append({'label': v})`, with each
Python failure mode of the chain made explicit. -/
def jDictAppendSector (d : List (Json × Json)) (k lab : Json) :
    Except PyErr (List (Json × Json)) := do
  let v ← match jDictFind d k with
    | some v => pure v
    | none => throw PyErr.keyError
  match v with
  | .obj fields =>
    match fields.lookup "sectors" with
    | some (.arr xs) =>
      pure (d.map (fun p =>
        if p.1 == k then
          (p.1, Json.obj (fields.map (fun q =>
            if q.1 == "sectors" then
              ("sectors", Json.arr (xs ++ [Json.obj [("label", lab)]]))
            else q)))
        else p))
    | some _ => throw PyErr.attributeError
    | none => throw PyErr.keyError
  | _ => throw PyErr.typeError

/-- One assignment of the dictionary comprehension `{lei: empty for lei in
leis}`. -/
def emptyDictStep (acc : List (Json × Json)) (lei : String) :
    List (Json × Json) :=
  if jDictMem acc (Json.str lei) then
    jDictInsert acc (Json.str lei) emptyWdJson
  else acc ++ [(Json.str lei, emptyWdJson)]

/-- The dictionary comprehension `{lei: empty for lei in leis}`. -/
def emptyBatchDict (leis : List String) : List (Json × Json) :=
  leis.foldl emptyDictStep []

/-- One iteration of the binding loop of `_query_wikidata_batch`: read the
binding's `lei` value, skip falsy values, create the entry if the key is new,
then append a sector when an `industryLabel` is present. -/
def batchBindingStep (acc : List (Json × Json)) (binding : Json) :
    Except PyErr (List (Json × Json)) := do
  let leiDict ← binding.dictGet "lei" (.obj [])
  let lei ← leiDict.dictGet "value" .null
  if !lei.truthy then
    return acc
  else if !lei.hashable then
    throw PyErr.typeError
  else do
    let acc ← do
      if !(jDictMem acc lei) then
        let hasItem ← Json.hasMember "item" binding
        let wikidata_id ←
          if hasItem then do
            let item ← binding.subscriptStr "item"
            let v ← item.subscriptStr "value"
            v.splitSlashLast
          else pure Json.null
        let descDict ← binding.dictGet "itemDescription" (.obj [])
        let description ← descDict.dictGet "value" .null
        pure (jDictInsert acc lei
          (Json.obj [("wikidata_id", wikidata_id),
                     ("description", description),
                     ("sectors", .arr [])]))
      else pure acc
    let hasInd ← Json.hasMember "industryLabel" binding
    if hasInd then do
      let il ← binding.subscriptStr "industryLabel"
      let v ← il.subscriptStr "value"
      jDictAppendSector acc lei v
    else pure acc

/-- One iteration of the fill loop of `_query_wikidata_batch`: a requested
LEI that is still missing gets the empty result. -/
def batchFillStep (acc : List (Json × Json)) (lei : String) :
    List (Json × Json) :=
  if jDictMem acc (Json.str lei) then acc
  else acc ++ [(Json.str lei, emptyWdJson)]

/-- Body of the `try` block of `_query_wikidata_batch` after a decoded JSON
value is available: the binding loop in source order, then the fill loop. -/
def wikidataBatchFromData (data : Json) (leis : List String) :
    Except PyErr (List (Json × Json)) := do
  let resultsJ ← data.dictGet "results" (.obj [])
  let bindingsJ ← resultsJ.dictGet "bindings" (.arr [])
  let bindings ← bindingsJ.iter
  let results ← bindings.foldlM batchBindingStep ([] : List (Json × Json))
  return leis.foldl batchFillStep results

/-- EnrichmentService._query_wikidata_batch (lines 186-243): empty requests
short-circuit; transport errors, 4xx/5xx statuses, undecodable bodies and
`KeyError` degrade to the all-empty dictionary over the requested LEIs; any
other exception propagates. -/
def query_wikidata_batch (resp : HttpOutcome) (leis : List String) :
    Except PyErr (List (Json × Json)) :=
  if leis == [] then .ok []
  else
    match resp with
    | .transportError => .ok (emptyBatchDict leis)
    | .response status body =>
      if 400 ≤ status ∧ status < 600 then .ok (emptyBatchDict leis)
      else
        match body with
        | none => .ok (emptyBatchDict leis)
        | some data =>
          match wikidataBatchFromData data leis with
          | .ok d => .ok d
          | .error .keyError => .ok (emptyBatchDict leis)
          | .error e => .error e

/-- Keys of a batch query result, the empty list on an exception. -/
def batchKeys (r : Except PyErr (List (Json × Json))) : List Json :=
  match r with
  | .ok d => d.map (fun p => p.1)
  | .error _ => []

/-- The `lei` values of a binding list, read with the same guarded accesses
the binding loop uses. -/
def bindingLeiVals (bs : List Json) : List Json :=
  bs.filterMap (fun b =>
    match b.dictGet "lei" (.obj []) with
    | .error _ => none
    | .ok leiDict =>
      match leiDict.dictGet "value" .null with
      | .error _ => none
      | .ok v => some v)

/-- The `lei` binding values a decoded response body mentions; shapes the
binding loop cannot iterate contribute nothing. -/
def responseLeiValues (data : Json) : List Json :=
  match data.dictGet "results" (.obj []) with
  | .error _ => []
  | .ok results =>
    match results.dictGet "bindings" (.arr []) with
    | .error _ => []
    | .ok bindingsJ =>
      match bindingsJ.iter with
      | .error _ => []
      | .ok bindings => bindingLeiVals bindings

/-! Concrete instances the theorems below are exercised on. -/

/-- Metadata row mirroring the repository's own test fixture. -/
def appleMeta : MetaRow :=
  { lei := "LEI_APPLE", registration_status := "ISSUED",
    entity_status := "ACTIVE", legal_name := "Apple Inc",
    city := "Cupertino", country := "US", category := "GENERAL" }

/-- Database holding one mapped ISIN, as in the repository's test fixture. -/
def c2Db : Db :=
  { isin_lei_map := [("US123", "LEI_APPLE")], lei_metadata := [appleMeta],
    wikidata_cache := [], company_sectors := [] }

/-- A `json.loads` stand-in that always fails to decode. -/
def loadsNone : String → Option (List String) := fun _ => none

/-- A batch knowledge-base query that returns nothing. -/
def qwbEmpty : List String → List (String × WdData) := fun _ => []

/-- An unenriched company, mirroring the repository's model test fixture. -/
def testCoPlain : Company :=
  { lei := "LEI_TEST", registration_status := "active",
    entity_status := "active", legal_name := "Test Co", city := "Zurich",
    country := "CH", category := "Finance" }

/-- The same company after enrichment. -/
def testCoRich : Company :=
  { testCoPlain with description := "Global Bank", sector_labels := ["Banking"] }

/-- A knowledge-base result with data, mirroring the specification's Apple
scenario. -/
def wdApple : WdData :=
  { wikidata_id := some "Q312", description := some "technology company",
    sectors := [{ label := "Electronics" }] }

/-- A single-item knowledge-base query returning `wdApple` for every LEI. -/
def qwApple : String → WdData := fun _ => wdApple

/-- A repository whose every lookup yields the enriched company. -/
def repoRich : RepoOps :=
  { get_by_isin := fun _ => .ok (some testCoRich),
    get_by_isins := fun _ => .ok [some testCoRich],
    get_by_lei := fun _ => .ok (some testCoRich) }

/-- A repository whose every lookup yields the unenriched company. -/
def repoPlain : RepoOps :=
  { get_by_isin := fun _ => .ok (some testCoPlain),
    get_by_isins := fun _ => .ok [some testCoPlain],
    get_by_lei := fun _ => .ok (some testCoPlain) }

/-- A response body whose bindings mention a LEI value `"X"` that was never
requested. -/
def c5Data : Json :=
  .obj [("results", .obj [("bindings", .arr [
    .obj [("lei", .obj [("value", .str "X")]),
          ("item", .obj [("value", .str "http://www.wikidata.org/entity/Q1")])]
  ])])]

/-- A successful response carrying `c5Data`. -/
def c5Resp : HttpOutcome := .response 200 (some c5Data)

/-- The dictionary the batch query builds from `c5Resp` for the request
`["A"]`: the unrequested key `"X"` from the binding, then the requested key
`"A"` filled with the empty result. -/
def c5Result : List (Json × Json) :=
  [(Json.str "X",
    Json.obj [("wikidata_id", .str "Q1"), ("description", .null),
              ("sectors", .arr [])]),
   (Json.str "A", emptyWdJson)]

/-- A syntactically valid JSON body of the wrong structural type: a top-level
array instead of the SPARQL results object. -/
def c6ArrayBody : Json := .arr []

/-- A response body whose only binding lacks the `value` key under `item`,
making the processing raise (and catch) a `KeyError`. -/
def c6KeyErrData : Json :=
  .obj [("results", .obj [("bindings", .arr [.obj [("item", .obj [])]])])]

/-- A batch response body whose binding has a usable `lei` but an `item`
without a `value` key, so batch processing raises (and catches) `KeyError`. -/
def c6BatchKeyErrData : Json :=
  .obj [("results", .obj [("bindings", .arr [
    .obj [("lei", .obj [("value", .str "B")]), ("item", .obj [])]])])]

/-- The row used to exercise `Company.from_row` on an undecodable
`sector_labels` value. -/
def c10Row : Row :=
  fullRow (.text "LEI_TEST") (.text "ISSUED") (.text "ACTIVE")
    (.text "Test Co") (.text "Zurich") (.text "CH") (.text "Finance")
    .null (.text "not json")

/-- The company `Company.from_row` reconstructs from `c10Row`. -/
def c10Company : Company :=
  { lei := "LEI_TEST", registration_status := "ISSUED",
    entity_status := "ACTIVE", legal_name := "Test Co", city := "Zurich",
    country := "CH", category := "Finance", description := "",
    sector_labels := [] }

/-- Sector entries used to exercise `save_wikidata_information`. -/
def c7Sectors : List SectorInfo :=
  [{ label := "Electronics", qid := "Q112" }]

/-! Theorems. -/

/-- C1: `find_matches(isin, k)` is claimed to normalise the identifier,
resolve and enrich the source entity, query the vector index and hydrate the
returned identifiers.  In the code every call with a valid ISIN instead
raises `AttributeError`, because the method body calls `self.find_isin`,
an attribute `MatchingService` does not define (it defines `find_by_isin`);
an invalid ISIN still fails first in normalisation.  This theorem evaluates
the embedded method at both kinds of input. -/
theorem c1_find_matches_attribute_error :
    find_matches id "CH0244767585" 5 = .error .attributeError ∧
    find_matches id "US037833100" 5 =
      .error (.valueError "ISIN length mismatch, expected 12, got 11.") := by
  exact ⟨rfl, rfl⟩

/-- C2: the batched enrichment operation is claimed to return an input-aligned
list with `None` at unmatched positions.  In the code, any input ISIN that
matches a row makes `Company.from_row` raise `IndexError` (the repository's
`SELECT` omits the `description` and `sector_labels` columns the constructor
reads), and an unmatched ISIN is dropped entirely rather than reported as
`None`, so a one-element input yields an empty result. -/
theorem c2_batched_enrichment_bug :
    get_enriched_companies_by_isin (sqliteRepo loadsNone c2Db) qwbEmpty 30
      ["US123"] = .error .indexError ∧
    get_enriched_companies_by_isin (sqliteRepo loadsNone c2Db) qwbEmpty 30
      ["ZZ0000000000"] = .ok ([], []) := by
  exact ⟨rfl, rfl⟩

/-- C3: the single-item enrichment operations return an already-enriched
entity as-is and observably issue no external call (the effect trace is
empty), and an entity without sector data for which the client returns a
non-empty result (a truthy `wikidata_id`) is enriched in memory and handed
to the identity store's `enrich_company` before the operation returns. -/
theorem c3_single_item_enrichment :
    (∀ (repo : RepoOps) (qw : String → WdData) (isin : String)
        (company : Company),
        repo.get_by_isin isin = .ok (some company) →
        company.has_sector_data = true →
        get_enriched_company_by_isin repo qw isin = .ok (some company, [])) ∧
    (∀ (repo : RepoOps) (qw : String → WdData) (lei : String)
        (company : Company),
        repo.get_by_lei lei = .ok (some company) →
        company.has_sector_data = true →
        get_enriched_company_by_lei repo qw lei = .ok (some company, [])) ∧
    (∀ (repo : RepoOps) (qw : String → WdData) (isin : String)
        (company : Company),
        repo.get_by_isin isin = .ok (some company) →
        company.has_sector_data = false →
        optStrTruthy (qw company.lei).wikidata_id = true →
        get_enriched_company_by_isin repo qw isin =
          .ok (some (company.enrich
                 ((qw company.lei).sectors.map WdSector.label)
                 (pyOrEmpty (qw company.lei).description)),
               [Eff.wikidataQuery company.lei,
                Eff.repoEnrich company.lei
                  (pyOrEmpty (qw company.lei).description)
                  ((qw company.lei).sectors.map WdSector.label)])) ∧
    (∀ (repo : RepoOps) (qw : String → WdData) (lei : String)
        (company : Company),
        repo.get_by_lei lei = .ok (some company) →
        company.has_sector_data = false →
        optStrTruthy (qw company.lei).wikidata_id = true →
        get_enriched_company_by_lei repo qw lei =
          .ok (some (company.enrich
                 ((qw company.lei).sectors.map WdSector.label)
                 (pyOrEmpty (qw company.lei).description)),
               [Eff.wikidataQuery company.lei,
                Eff.repoEnrich company.lei
                  (pyOrEmpty (qw company.lei).description)
                  ((qw company.lei).sectors.map WdSector.label)])) := by
  refine ⟨?_, ?_, ?_, ?_⟩
  · intro repo qw isin company hrepo hdata
    unfold get_enriched_company_by_isin ensure_enriched_company_by_isin
    rw [hrepo]
    simp [Bind.bind, Except.bind, hdata, Pure.pure, Except.pure]
  · intro repo qw lei company hrepo hdata
    unfold get_enriched_company_by_lei ensure_enriched_company_by_lei
    rw [hrepo]
    simp [Bind.bind, Except.bind, hdata, Pure.pure, Except.pure]
  · intro repo qw isin company hrepo hdata hqw
    unfold get_enriched_company_by_isin ensure_enriched_company_by_isin
    rw [hrepo]
    simp [Bind.bind, Except.bind, hdata, hqw, Pure.pure, Except.pure,
      Company.enrich]
  · intro repo qw lei company hrepo hdata hqw
    unfold get_enriched_company_by_lei ensure_enriched_company_by_lei
    rw [hrepo]
    simp [Bind.bind, Except.bind, hdata, hqw, Pure.pure, Except.pure,
      Company.enrich]

/-- C3 witness: both paths evaluated on concrete collaborators — an enriched
company is returned as-is with an empty trace, and an unenriched one is
enriched with the client's data and persisted. -/
theorem c3_single_item_enrichment_witness :
    get_enriched_company_by_isin repoRich qwApple "X" =
      .ok (some testCoRich, []) ∧
    get_enriched_company_by_lei repoPlain qwApple "LEI_TEST" =
      .ok (some (testCoPlain.enrich ["Electronics"] "technology company"),
           [Eff.wikidataQuery "LEI_TEST",
            Eff.repoEnrich "LEI_TEST" "technology company" ["Electronics"]]) := by
  constructor
  · exact c3_single_item_enrichment.1 repoRich qwApple "X" testCoRich rfl rfl
  · exact c3_single_item_enrichment.2.2.2 repoPlain qwApple "LEI_TEST"
      testCoPlain rfl rfl rfl

/-- Unfolding of `_validate_normalize_isin` as a chain of guards. -/
theorem validate_normalize_isin_eq (nfkc : String → String) (raw : String) :
    validate_normalize_isin nfkc raw =
      (if raw == "" then .error (.valueError "ISIN is None.")
       else if pyStrip (nfkc raw) == "" then
         .error (.valueError "ISIN is empty after trimming.")
       else if !((cleanedIsin nfkc raw).length == 12) then
         .error (.valueError
           s!"ISIN length mismatch, expected 12, got {(cleanedIsin nfkc raw).length}.")
       else if !(isinRegexMatch (cleanedIsin nfkc raw)) then
         .error (.valueError "ISIN format not consistent with expected format: 2 letters, 9 alphanumeric characters, and a final digit.")
       else .ok (cleanedIsin nfkc raw)) := rfl

/-- C8: the normalizer returns the NFKC-normalised, trimmed,
whitespace-and-hyphen-stripped, upper-cased string exactly when that string
has length 12 and matches two letters, nine alphanumerics and a trailing
digit; otherwise it fails with a `ValueError`; and the claim's two concrete
examples evaluate as stated (NFKC is the identity on their ASCII input). -/
theorem c8_normalize_contract :
    (∀ (nfkc : String → String) (raw r : String),
        validate_normalize_isin nfkc raw = .ok r →
        r = cleanedIsin nfkc raw ∧ r.length = 12 ∧ isinRegexMatch r = true) ∧
    (∀ (nfkc : String → String) (raw : String),
        validate_normalize_isin nfkc raw = .ok (cleanedIsin nfkc raw) ↔
          (raw ≠ "" ∧ pyStrip (nfkc raw) ≠ "" ∧
           (cleanedIsin nfkc raw).length = 12 ∧
           isinRegexMatch (cleanedIsin nfkc raw) = true)) ∧
    (∀ (nfkc : String → String) (raw : String),
        (∃ r, validate_normalize_isin nfkc raw = .ok r) ∨
        (∃ m, validate_normalize_isin nfkc raw = .error (.valueError m))) ∧
    validate_normalize_isin id " ch0244767585 " = .ok "CH0244767585" ∧
    validate_normalize_isin id "US037833100" =
      .error (.valueError "ISIN length mismatch, expected 12, got 11.") := by
  refine ⟨?_, ?_, ?_, rfl, rfl⟩
  · intro nfkc raw r h
    rw [validate_normalize_isin_eq] at h
    by_cases h1 : raw = ""
    · simp [h1] at h
    · by_cases h2 : pyStrip (nfkc raw) = ""
      · simp [h1, h2] at h
      · by_cases h3 : (cleanedIsin nfkc raw).length = 12
        · by_cases h4 : isinRegexMatch (cleanedIsin nfkc raw) = true
          · simp [h1, h2, h3, h4] at h
            subst h
            exact ⟨rfl, h3, h4⟩
          · simp [h1, h2, h3, h4] at h
        · simp [h1, h2, h3] at h
  · intro nfkc raw
    rw [validate_normalize_isin_eq]
    constructor
    · intro h
      by_cases h1 : raw = ""
      · simp [h1] at h
      · by_cases h2 : pyStrip (nfkc raw) = ""
        · simp [h1, h2] at h
        · by_cases h3 : (cleanedIsin nfkc raw).length = 12
          · by_cases h4 : isinRegexMatch (cleanedIsin nfkc raw) = true
            · exact ⟨h1, h2, h3, h4⟩
            · simp [h1, h2, h3, h4] at h
          · simp [h1, h2, h3] at h
    · rintro ⟨h1, h2, h3, h4⟩
      simp [h1, h2, h3, h4]
  · intro nfkc raw
    rw [validate_normalize_isin_eq]
    by_cases h1 : raw = ""
    · exact .inr ⟨"ISIN is None.", by simp [h1]⟩
    · by_cases h2 : pyStrip (nfkc raw) = ""
      · exact .inr ⟨"ISIN is empty after trimming.", by simp [h1, h2]⟩
      · by_cases h3 : (cleanedIsin nfkc raw).length = 12
        · by_cases h4 : isinRegexMatch (cleanedIsin nfkc raw) = true
          · exact .inl ⟨cleanedIsin nfkc raw, by simp [h1, h2, h3, h4]⟩
          · exact .inr ⟨"ISIN format not consistent with expected format: 2 letters, 9 alphanumeric characters, and a final digit.",
              by simp [h1, h2, h3, h4]⟩
        · exact .inr
            ⟨s!"ISIN length mismatch, expected 12, got {(cleanedIsin nfkc raw).length}.",
              by simp [h1, h2, h3]⟩

/-- C8 witness: the contract applied at the claim's concrete valid input,
and the acceptance characterisation applied at another valid ISIN. -/
theorem c8_normalize_contract_witness :
    ("CH0244767585" = cleanedIsin id " ch0244767585 " ∧
      ("CH0244767585" : String).length = 12 ∧
      isinRegexMatch "CH0244767585" = true) ∧
    validate_normalize_isin id "DE0005557508" =
      .ok (cleanedIsin id "DE0005557508") := by
  constructor
  · exact c8_normalize_contract.1 id " ch0244767585 " "CH0244767585" rfl
  · exact (c8_normalize_contract.2.1 id "DE0005557508").2
      ⟨by decide, by decide, by decide, by decide⟩

/-- C4 counterexample: the claim says every call to `enrich` makes
`has_sector_data` true and that it then stays true.  Calling
`enrich([], "")` on an enriched entity resets both fields and the flag
becomes false again. -/
theorem c4_enrich_unenriches_counterexample :
    testCoRich.has_sector_data = true ∧
    (testCoRich.enrich [] "").has_sector_data = false := by
  exact ⟨rfl, rfl⟩

/-- C4 amended: `has_sector_data` is false exactly when both enrichment
fields are empty; a freshly constructed entity with default fields has it
false, and after `enrich(labels, description)` it is true iff `labels` or
`description` is non-empty — `enrich` overwrites unconditionally, so the
transition is not monotonic. -/
theorem c4_enrich_flag_amended :
    (∀ (c : Company) (labels : List String) (d : String),
        (c.enrich labels d).has_sector_data = (!(labels == []) || !(d == ""))) ∧
    (∀ (lei rs es ln ci co ca : String),
        (Company.mk lei rs es ln ci co ca "" []).has_sector_data = false) := by
  constructor
  · intro c labels d
    rfl
  · intro lei rs es ln ci co ca
    rfl

/-- C7: the identity store is claimed to expose `enrich_company(lei,
description, labels)` as an idempotent upsert of the enrichment fields.
`SqliteCompanyRepository` never overrides the Protocol stub, whose body is
the bare `...` expression, so the call stores nothing at all (first
conjunct); the nearest real upsert, `save_wikidata_information`, is indeed
idempotent on the database state (second conjunct). -/
theorem c7_enrich_company_noop :
    (∀ (db : Db) (lei description : String) (labels : List String),
        enrich_company db lei description labels = db) ∧
    (∀ (db : Db) (lei wid desc now : String) (sectors : List SectorInfo),
        save_wikidata_information
          (save_wikidata_information db lei wid desc sectors now)
          lei wid desc sectors now =
        save_wikidata_information db lei wid desc sectors now) := by
  constructor
  · intro db lei description labels
    rfl
  · intro db lei wid desc now sectors
    simp [save_wikidata_information, List.filter_append, List.filter_filter]

/-- C9: `embedding_text` is total and deterministic: each of the four
presence combinations of `description` and `sector_labels` produces exactly
its template, and equal entity states produce identical text. -/
theorem c9_embedding_text_templates :
    ∀ c : Company,
      (c.description ≠ "" → c.sector_labels ≠ [] →
        c.embedding_text = embeddingBoth c) ∧
      (c.description ≠ "" → c.sector_labels = [] →
        c.embedding_text = embeddingDescOnly c) ∧
      (c.description = "" → c.sector_labels ≠ [] →
        c.embedding_text = embeddingLabelsOnly c) ∧
      (c.description = "" → c.sector_labels = [] →
        c.embedding_text = embeddingFallback c) ∧
      (∀ d : Company, c = d → c.embedding_text = d.embedding_text) := by
  intro c
  refine ⟨?_, ?_, ?_, ?_, ?_⟩
  · intro h1 h2
    simp [Company.embedding_text, embeddingBoth, h1, h2]
  · intro h1 h2
    simp [Company.embedding_text, embeddingDescOnly, h1, h2]
  · intro h1 h2
    simp [Company.embedding_text, embeddingLabelsOnly, h1, h2,
      String.intercalate]
  · intro h1 h2
    simp [Company.embedding_text, embeddingFallback, h1, h2]
  · intro d h
    rw [h]

/-- C9 witness: the template selection evaluated on the two test-fixture
companies. -/
theorem c9_embedding_text_templates_witness :
    testCoRich.embedding_text = embeddingBoth testCoRich ∧
    testCoPlain.embedding_text = embeddingFallback testCoPlain := by
  exact ⟨(c9_embedding_text_templates testCoRich).1 (by decide) (by decide),
         (c9_embedding_text_templates testCoPlain).2.2.2.1 rfl rfl⟩

/-- Key membership distributes over appended dictionary entries. -/
theorem jDictMem_append (d e : List (Json × Json)) (k : Json) :
    jDictMem (d ++ e) k = (jDictMem d k || jDictMem e k) := by
  simp [jDictMem, List.any_append]

/-- A map that preserves first components preserves key membership. -/
theorem any_map_fst (d : List (Json × Json)) (f : Json × Json → Json × Json)
    (hf : ∀ p, (f p).1 = p.1) (k : Json) :
    (d.map f).any (fun p => p.1 == k) = d.any (fun p => p.1 == k) := by
  induction d with
  | nil => rfl
  | cons p t ih => simp [List.any_cons, hf p, ih]

/-- The replacement map of `jDictInsert` preserves first components. -/
theorem insert_map_fst (k v : Json) :
    ∀ p : Json × Json, ((if p.1 == k then (p.1, v) else p) : Json × Json).1 = p.1 := by
  intro p
  by_cases hp : p.1 == k <;> simp [hp]

/-- Inserting a key makes it a member. -/
theorem jDictMem_insert_self (d : List (Json × Json)) (k v : Json) :
    jDictMem (jDictInsert d k v) k = true := by
  unfold jDictInsert jDictMem
  by_cases h : d.any (fun p => p.1 == k) = true
  · rw [if_pos h, any_map_fst _ _ (insert_map_fst k v)]
    exact h
  · rw [if_neg h]
    simp [List.any_append]

/-- Inserting a key keeps all existing keys. -/
theorem jDictMem_insert_mono (d : List (Json × Json)) (k v k2 : Json)
    (h : jDictMem d k2 = true) :
    jDictMem (jDictInsert d k v) k2 = true := by
  unfold jDictInsert jDictMem at *
  by_cases hk : d.any (fun p => p.1 == k) = true
  · rw [if_pos hk, any_map_fst _ _ (insert_map_fst k v)]
    exact h
  · rw [if_neg hk]
    simp [List.any_append, h]

/-- Inserting adds no key other than the inserted one. -/
theorem jDictMem_insert_subset (d : List (Json × Json)) (k v k2 : Json)
    (h : jDictMem (jDictInsert d k v) k2 = true) :
    jDictMem d k2 = true ∨ k2 = k := by
  unfold jDictInsert jDictMem at *
  by_cases hk : d.any (fun p => p.1 == k) = true
  · rw [if_pos hk, any_map_fst _ _ (insert_map_fst k v)] at h
    exact .inl h
  · rw [if_neg hk] at h
    simp [List.any_append] at h
    rcases h with h | h
    · exact .inl (by simp [h])
    · exact .inr (by simp [h])

/-- `results[lei]["sectors"].append(...)` changes no key. -/
theorem jDictMem_appendSector (d : List (Json × Json)) (k lab : Json)
    (d2 : List (Json × Json)) (h : jDictAppendSector d k lab = .ok d2)
    (k2 : Json) : jDictMem d2 k2 = jDictMem d k2 := by
  unfold jDictAppendSector at h
  cases hf : jDictFind d k with
  | none =>
    simp [hf, Bind.bind, Except.bind, throw, throwThe, MonadExceptOf.throw] at h
  | some v =>
    cases v with
    | obj fields =>
      cases hs : fields.lookup "sectors" with
      | none =>
        simp [hf, hs, Bind.bind, Except.bind, Pure.pure, Except.pure, throw,
          throwThe, MonadExceptOf.throw] at h
      | some w =>
        cases w with
        | arr xs =>
          simp only [hf, hs, Bind.bind, Except.bind, Pure.pure,
            Except.pure] at h
          injection h with h
          subst h
          unfold jDictMem
          exact any_map_fst _ _
            (fun p => by by_cases hp : p.1 == k <;> simp [hp]) k2
        | null =>
          simp [hf, hs, Bind.bind, Except.bind, Pure.pure, Except.pure, throw,
            throwThe, MonadExceptOf.throw] at h
        | str s =>
          simp [hf, hs, Bind.bind, Except.bind, Pure.pure, Except.pure, throw,
            throwThe, MonadExceptOf.throw] at h
        | num n =>
          simp [hf, hs, Bind.bind, Except.bind, Pure.pure, Except.pure, throw,
            throwThe, MonadExceptOf.throw] at h
        | bool b =>
          simp [hf, hs, Bind.bind, Except.bind, Pure.pure, Except.pure, throw,
            throwThe, MonadExceptOf.throw] at h
        | obj fs =>
          simp [hf, hs, Bind.bind, Except.bind, Pure.pure, Except.pure, throw,
            throwThe, MonadExceptOf.throw] at h
    | null =>
      simp [hf, Bind.bind, Except.bind, Pure.pure, Except.pure, throw,
        throwThe, MonadExceptOf.throw] at h
    | str s =>
      simp [hf, Bind.bind, Except.bind, Pure.pure, Except.pure, throw,
        throwThe, MonadExceptOf.throw] at h
    | num n =>
      simp [hf, Bind.bind, Except.bind, Pure.pure, Except.pure, throw,
        throwThe, MonadExceptOf.throw] at h
    | bool b =>
      simp [hf, Bind.bind, Except.bind, Pure.pure, Except.pure, throw,
        throwThe, MonadExceptOf.throw] at h
    | arr xs =>
      simp [hf, Bind.bind, Except.bind, Pure.pure, Except.pure, throw,
        throwThe, MonadExceptOf.throw] at h

/-- Folding a membership-monotone step preserves membership. -/
theorem foldl_preserve_mem
    (step : List (Json × Json) → String → List (Json × Json))
    (hmono : ∀ acc l k, jDictMem acc k = true → jDictMem (step acc l) k = true) :
    ∀ (t : List String) (acc : List (Json × Json)) (k : Json),
      jDictMem acc k = true → jDictMem (t.foldl step acc) k = true := by
  intro t
  induction t with
  | nil => intro acc k h; exact h
  | cons a t ih => intro acc k h; exact ih _ _ (hmono acc a k h)

/-- Folding a step that establishes membership of its own key over a list
makes every listed key a member. -/
theorem foldl_mem_all
    (step : List (Json × Json) → String → List (Json × Json))
    (hmono : ∀ acc l k, jDictMem acc k = true → jDictMem (step acc l) k = true)
    (hself : ∀ acc l, jDictMem (step acc l) (Json.str l) = true) :
    ∀ (leis : List String) (acc : List (Json × Json)) (lei : String),
      lei ∈ leis → jDictMem (leis.foldl step acc) (Json.str lei) = true := by
  intro leis
  induction leis with
  | nil => intro acc lei h; cases h
  | cons a t ih =>
    intro acc lei h
    cases List.mem_cons.mp h with
    | inl h1 =>
      subst h1
      exact foldl_preserve_mem step hmono t (step acc lei) _ (hself acc lei)
    | inr h2 => exact ih (step acc a) lei h2

/-- The dictionary-comprehension step is membership-monotone. -/
theorem emptyDictStep_mono (acc : List (Json × Json)) (l : String) (k : Json)
    (h : jDictMem acc k = true) : jDictMem (emptyDictStep acc l) k = true := by
  unfold emptyDictStep
  by_cases hm : jDictMem acc (Json.str l) = true
  · rw [if_pos hm]
    exact jDictMem_insert_mono _ _ _ _ h
  · rw [if_neg hm, jDictMem_append, h]
    rfl

/-- The dictionary-comprehension step establishes its own key. -/
theorem emptyDictStep_self (acc : List (Json × Json)) (l : String) :
    jDictMem (emptyDictStep acc l) (Json.str l) = true := by
  unfold emptyDictStep
  by_cases hm : jDictMem acc (Json.str l) = true
  · rw [if_pos hm]
    exact jDictMem_insert_self _ _ _
  · rw [if_neg hm, jDictMem_append]
    simp [jDictMem]

/-- The fill-loop step is membership-monotone. -/
theorem batchFillStep_mono (acc : List (Json × Json)) (l : String) (k : Json)
    (h : jDictMem acc k = true) : jDictMem (batchFillStep acc l) k = true := by
  unfold batchFillStep
  by_cases hm : jDictMem acc (Json.str l) = true
  · rw [if_pos hm]; exact h
  · rw [if_neg hm, jDictMem_append, h]; rfl

/-- The fill-loop step establishes its own key. -/
theorem batchFillStep_self (acc : List (Json × Json)) (l : String) :
    jDictMem (batchFillStep acc l) (Json.str l) = true := by
  unfold batchFillStep
  by_cases hm : jDictMem acc (Json.str l) = true
  · rw [if_pos hm]; exact hm
  · rw [if_neg hm, jDictMem_append]
    simp [jDictMem]

/-- Every requested key is a member of the all-empty dictionary. -/
theorem emptyBatchDict_mem (leis : List String) (lei : String)
    (h : lei ∈ leis) :
    jDictMem (emptyBatchDict leis) (Json.str lei) = true :=
  foldl_mem_all emptyDictStep emptyDictStep_mono emptyDictStep_self leis [] lei h

/-- A member key of a dictionary whose values are all the empty result looks
up to the empty result. -/
theorem jDictFind_of_mem_allEmpty (d : List (Json × Json))
    (hall : ∀ p ∈ d, p.2 = emptyWdJson) (k : Json)
    (hmem : jDictMem d k = true) :
    jDictFind d k = some emptyWdJson := by
  unfold jDictFind
  unfold jDictMem at hmem
  cases hfind : d.find? (fun p => p.1 == k) with
  | none =>
    obtain ⟨p, hp, hpk⟩ := List.any_eq_true.mp hmem
    exact absurd hpk (List.find?_eq_none.mp hfind p hp)
  | some q =>
    have hqmem := List.mem_of_find?_eq_some hfind
    simp [hall q hqmem]

/-- Inserting the empty result keeps every value equal to the empty result. -/
theorem jDictInsert_all_empty (d : List (Json × Json))
    (hall : ∀ p ∈ d, p.2 = emptyWdJson) (k : Json) :
    ∀ p ∈ jDictInsert d k emptyWdJson, p.2 = emptyWdJson := by
  unfold jDictInsert
  by_cases h : d.any (fun p => p.1 == k) = true
  · rw [if_pos h]
    intro p hp
    obtain ⟨q, hq, hfq⟩ := List.mem_map.mp hp
    by_cases hqk : q.1 == k
    · rw [if_pos hqk] at hfq
      rw [← hfq]
    · rw [if_neg hqk] at hfq
      rw [← hfq]
      exact hall q hq
  · rw [if_neg h]
    intro p hp
    rcases List.mem_append.mp hp with hp1 | hp1
    · exact hall p hp1
    · simp at hp1
      rw [hp1]

/-- The dictionary comprehension produces only empty-result values. -/
theorem emptyDictFold_all_empty :
    ∀ (leis : List String) (acc : List (Json × Json)),
      (∀ p ∈ acc, p.2 = emptyWdJson) →
      ∀ p ∈ leis.foldl emptyDictStep acc, p.2 = emptyWdJson := by
  intro leis
  induction leis with
  | nil => intro acc hall p hp; exact hall p hp
  | cons a t ih =>
    intro acc hall p hp
    refine ih (emptyDictStep acc a) ?_ p hp
    unfold emptyDictStep
    by_cases hm : jDictMem acc (Json.str a) = true
    · rw [if_pos hm]
      exact jDictInsert_all_empty acc hall (Json.str a)
    · rw [if_neg hm]
      intro q hq
      rcases List.mem_append.mp hq with hq1 | hq1
      · exact hall q hq1
      · simp at hq1
        rw [hq1]

/-- Every requested LEI in the all-empty dictionary maps to the empty
result. -/
theorem emptyBatchDict_find (leis : List String) (lei : String)
    (h : lei ∈ leis) :
    jDictFind (emptyBatchDict leis) (Json.str lei) = some emptyWdJson :=
  jDictFind_of_mem_allEmpty _
    (emptyDictFold_all_empty leis [] (by intro p hp; cases hp)) _
    (emptyBatchDict_mem leis lei h)

/-- Membership in the result of the binding loop after the fill loop covers
every requested LEI. -/
theorem batchFromData_mem (data : Json) (leis : List String)
    (d : List (Json × Json)) (h : wikidataBatchFromData data leis = .ok d) :
    ∀ lei ∈ leis, jDictMem d (Json.str lei) = true := by
  unfold wikidataBatchFromData at h
  cases h1 : data.dictGet "results" (.obj []) with
  | error e => simp [h1, Bind.bind, Except.bind] at h
  | ok results =>
    cases h2 : results.dictGet "bindings" (.arr []) with
    | error e => simp [h1, h2, Bind.bind, Except.bind] at h
    | ok bindingsJ =>
      cases h3 : bindingsJ.iter with
      | error e => simp [h1, h2, h3, Bind.bind, Except.bind] at h
      | ok bindings =>
        cases h4 : bindings.foldlM batchBindingStep
            ([] : List (Json × Json)) with
        | error e => simp [h1, h2, h3, h4, Bind.bind, Except.bind] at h
        | ok res =>
          simp [h1, h2, h3, h4, Bind.bind, Except.bind, Pure.pure,
            Except.pure] at h
          subst h
          intro lei hlei
          exact foldl_mem_all batchFillStep batchFillStep_mono
            batchFillStep_self leis res lei hlei

/-- The lei values of a cons of bindings split into the head's and the
tail's. -/
theorem bindingLeiVals_cons (b : Json) (t : List Json) :
    bindingLeiVals (b :: t) = bindingLeiVals [b] ++ bindingLeiVals t := by
  unfold bindingLeiVals
  rw [List.filterMap_cons, List.filterMap_cons]
  cases h1 : b.dictGet "lei" (.obj []) with
  | error e => simp
  | ok leiDict =>
    cases h2 : leiDict.dictGet "value" .null with
    | error e => simp [h2]
    | ok v => simp [h2]

/-- The industry-label tail of a binding-loop iteration changes no key. -/
theorem batchTail_keys (acc' : List (Json × Json)) (b lv : Json)
    (acc1 : List (Json × Json)) (k : Json)
    (h : (do
        let hasInd ← Json.hasMember "industryLabel" b
        if hasInd then do
          let il ← b.subscriptStr "industryLabel"
          let v ← il.subscriptStr "value"
          jDictAppendSector acc' lv v
        else pure acc') = Except.ok acc1)
    (hk : jDictMem acc1 k = true) : jDictMem acc' k = true := by
  cases h5 : Json.hasMember "industryLabel" b with
  | error e => simp [h5, Bind.bind, Except.bind] at h
  | ok hasInd =>
    cases hasInd with
    | false =>
      simp [h5, Bind.bind, Except.bind, Pure.pure, Except.pure] at h
      subst h
      exact hk
    | true =>
      simp only [h5, Bind.bind, Except.bind, if_true] at h
      cases h6 : b.subscriptStr "industryLabel" with
      | error e => simp [h6, Bind.bind, Except.bind] at h
      | ok il =>
        cases h7 : il.subscriptStr "value" with
        | error e => simp [h6, h7, Bind.bind, Except.bind] at h
        | ok v =>
          simp only [h6, h7, Bind.bind, Except.bind] at h
          rw [jDictMem_appendSector acc' lv v acc1 h k] at hk
          exact hk

/-- One binding-loop iteration adds at most the binding's own lei value as a
key. -/
theorem batchBindingStep_keys (acc : List (Json × Json)) (b : Json)
    (acc1 : List (Json × Json)) (h : batchBindingStep acc b = .ok acc1)
    (k : Json) (hk : jDictMem acc1 k = true) :
    jDictMem acc k = true ∨ k ∈ bindingLeiVals [b] := by
  unfold batchBindingStep at h
  cases h1 : b.dictGet "lei" (.obj []) with
  | error e => simp [h1, Bind.bind, Except.bind] at h
  | ok leiDict =>
    cases h2 : leiDict.dictGet "value" .null with
    | error e => simp [h1, h2, Bind.bind, Except.bind] at h
    | ok lv =>
      have hlv : lv ∈ bindingLeiVals [b] := by
        simp [bindingLeiVals, h1, h2]
      simp only [h1, h2, Bind.bind, Except.bind] at h
      by_cases htr : lv.truthy
      · by_cases hh : lv.hashable
        · by_cases hm : jDictMem acc lv = true
          · simp only [htr, hh, hm, Bool.not_true, Bool.false_eq_true,
              if_false, Pure.pure] at h
            exact .inl (batchTail_keys acc b lv acc1 k h hk)
          · simp only [htr, hh, Bool.not_true, Bool.false_eq_true, if_false,
              hm, Bool.not_false, if_true] at h
            cases h5 : Json.hasMember "item" b with
            | error e => simp [h5, Bind.bind, Except.bind] at h
            | ok hasItem =>
              cases hasItem with
              | true =>
                simp only [h5, Bind.bind, Except.bind, if_true] at h
                cases h6 : b.subscriptStr "item" with
                | error e => simp [h6, Bind.bind, Except.bind] at h
                | ok item =>
                  cases h7 : item.subscriptStr "value" with
                  | error e => simp [h6, h7, Bind.bind, Except.bind] at h
                  | ok iv =>
                    cases h8 : iv.splitSlashLast with
                    | error e => simp [h6, h7, h8, Bind.bind, Except.bind] at h
                    | ok wid =>
                      simp only [h6, h7, h8, Bind.bind, Except.bind] at h
                      cases h9 : b.dictGet "itemDescription" (.obj []) with
                      | error e => simp [h9, Bind.bind, Except.bind] at h
                      | ok dd =>
                        cases h10 : dd.dictGet "value" .null with
                        | error e =>
                          simp [h9, h10, Bind.bind, Except.bind] at h
                        | ok desc =>
                          simp only [h9, h10, Bind.bind, Except.bind,
                            Pure.pure] at h
                          have hmem' := batchTail_keys _ b lv acc1 k h hk
                          rcases jDictMem_insert_subset acc lv _ k hmem' with
                            h' | h'
                          · exact .inl h'
                          · exact .inr (h' ▸ hlv)
              | false =>
                simp only [h5, Bind.bind, Except.bind, Bool.false_eq_true,
                  if_false, Pure.pure, Except.pure] at h
                cases h9 : b.dictGet "itemDescription" (.obj []) with
                | error e => simp [h9, Bind.bind, Except.bind] at h
                | ok dd =>
                  cases h10 : dd.dictGet "value" .null with
                  | error e => simp [h9, h10, Bind.bind, Except.bind] at h
                  | ok desc =>
                    simp only [h9, h10, Bind.bind, Except.bind,
                      Pure.pure] at h
                    have hmem' := batchTail_keys _ b lv acc1 k h hk
                    rcases jDictMem_insert_subset acc lv _ k hmem' with
                      h' | h'
                    · exact .inl h'
                    · exact .inr (h' ▸ hlv)
        · simp [htr, hh, Bind.bind, Except.bind] at h
      · simp only [htr, Bool.not_false, if_true, Pure.pure, Except.pure] at h
        injection h with h
        subst h
        exact .inl hk

/-- The binding loop only adds keys taken from the bindings' lei values. -/
theorem batchFold_keys :
    ∀ (bs : List Json) (acc res : List (Json × Json)),
      bs.foldlM batchBindingStep acc = .ok res →
      ∀ k, jDictMem res k = true →
        jDictMem acc k = true ∨ k ∈ bindingLeiVals bs := by
  intro bs
  induction bs with
  | nil =>
    intro acc res h k hk
    simp [List.foldlM, Pure.pure, Except.pure] at h
    subst h
    exact .inl hk
  | cons b t ih =>
    intro acc res h k hk
    cases hstep : batchBindingStep acc b with
    | error e => simp [List.foldlM, hstep, Bind.bind, Except.bind] at h
    | ok acc1 =>
      have h' : t.foldlM batchBindingStep acc1 = .ok res := by
        simpa [List.foldlM, hstep, Bind.bind, Except.bind] using h
      rcases ih acc1 res h' k hk with h1 | h1
      · rcases batchBindingStep_keys acc b acc1 hstep k h1 with h2 | h2
        · exact .inl h2
        · exact .inr
            (by rw [bindingLeiVals_cons]; exact List.mem_append.mpr (.inl h2))
      · exact .inr
          (by rw [bindingLeiVals_cons]; exact List.mem_append.mpr (.inr h1))

/-- A search that fails on the first list continues into the second. -/
theorem find_append_none {α : Type} (l1 l2 : List α) (p : α → Bool)
    (h : l1.find? p = none) : (l1 ++ l2).find? p = l2.find? p := by
  induction l1 with
  | nil => rfl
  | cons a t ih =>
    rw [List.cons_append]
    cases hpa : p a with
    | true =>
      rw [List.find?_cons_of_pos _ hpa] at h
      exact absurd h (by simp)
    | false =>
      have hna : ¬ p a = true := by simp [hpa]
      rw [List.find?_cons_of_neg _ hna] at h
      rw [List.find?_cons_of_neg _ hna]
      exact ih h

/-- A search that succeeds on the first list ignores the second. -/
theorem find_append_some {α : Type} (l1 l2 : List α) (p : α → Bool) (q : α)
    (h : l1.find? p = some q) : (l1 ++ l2).find? p = some q := by
  induction l1 with
  | nil => simp [List.find?] at h
  | cons a t ih =>
    rw [List.cons_append]
    cases hpa : p a with
    | true =>
      rw [List.find?_cons_of_pos _ hpa] at h
      rw [List.find?_cons_of_pos _ hpa]
      exact h
    | false =>
      have hna : ¬ p a = true := by simp [hpa]
      rw [List.find?_cons_of_neg _ hna] at h
      rw [List.find?_cons_of_neg _ hna]
      exact ih h

/-- Appending the empty result for an absent key makes that key look up to
the empty result. -/
theorem jDictFind_append_absent (acc : List (Json × Json)) (lei : String)
    (h : jDictMem acc (Json.str lei) = false) :
    jDictFind (acc ++ [(Json.str lei, emptyWdJson)]) (Json.str lei) =
      some emptyWdJson := by
  have hnone : acc.find? (fun p => p.1 == Json.str lei) = none := by
    rw [List.find?_eq_none]
    intro p hp hpk
    have h2 : jDictMem acc (Json.str lei) = true :=
      List.any_eq_true.mpr ⟨p, hp, hpk⟩
    rw [h] at h2
    exact absurd h2 (by simp)
  unfold jDictFind
  rw [find_append_none _ _ _ hnone]
  simp [List.find?]

/-- The fill-loop step does not disturb an existing lookup result. -/
theorem batchFillStep_find_preserve (acc : List (Json × Json)) (l : String)
    (k v : Json) (h : jDictFind acc k = some v) :
    jDictFind (batchFillStep acc l) k = some v := by
  unfold batchFillStep
  by_cases hm : jDictMem acc (Json.str l) = true
  · rw [if_pos hm]; exact h
  · rw [if_neg hm]
    unfold jDictFind at h ⊢
    cases hf : acc.find? (fun p => p.1 == k) with
    | none => rw [hf] at h; simp at h
    | some q =>
      rw [hf] at h
      rw [find_append_some _ _ _ _ hf]
      exact h

/-- The fill loop does not disturb an existing lookup result. -/
theorem fillFold_find_preserve :
    ∀ (t : List String) (acc : List (Json × Json)) (k v : Json),
      jDictFind acc k = some v →
      jDictFind (t.foldl batchFillStep acc) k = some v := by
  intro t
  induction t with
  | nil => intro acc k v h; exact h
  | cons a t ih =>
    intro acc k v h
    exact ih _ _ _ (batchFillStep_find_preserve acc a k v h)

/-- A requested LEI absent before the fill loop looks up to the empty result
after it. -/
theorem fillFold_find_absent :
    ∀ (leis : List String) (acc : List (Json × Json)) (lei : String),
      lei ∈ leis → jDictMem acc (Json.str lei) = false →
      jDictFind (leis.foldl batchFillStep acc) (Json.str lei) =
        some emptyWdJson := by
  intro leis
  induction leis with
  | nil => intro acc lei h; cases h
  | cons a t ih =>
    intro acc lei hmem hfalse
    by_cases heq : lei = a
    · subst heq
      have hstep : batchFillStep acc lei =
          acc ++ [(Json.str lei, emptyWdJson)] := by
        unfold batchFillStep
        rw [if_neg (by simp [hfalse])]
      rw [List.foldl_cons, hstep]
      exact fillFold_find_preserve t _ _ _ (jDictFind_append_absent acc lei hfalse)
    · have hmem' : lei ∈ t := by
        rcases List.mem_cons.mp hmem with h | h
        · exact absurd h heq
        · exact h
      have hfalse' : jDictMem (batchFillStep acc a) (Json.str lei) = false := by
        unfold batchFillStep
        by_cases hm : jDictMem acc (Json.str a) = true
        · rw [if_pos hm]; exact hfalse
        · rw [if_neg hm, jDictMem_append, hfalse]
          simp [jDictMem]
          exact fun h => heq h.symm
      rw [List.foldl_cons]
      exact ih (batchFillStep acc a) lei hmem' hfalse'

/-- C5 counterexample: the claim says the key set of the batch result equals
the set of requested LEIs.  A response binding can carry a lei value the
request never mentioned; the code keys the result dictionary by whatever the
binding says, so the key set is a strict superset of the request here. -/
theorem c5_extraneous_key_counterexample :
    batchKeys (query_wikidata_batch c5Resp ["A"]) =
      [Json.str "X", Json.str "A"] ∧
    (Json.str "X") ∉ [Json.str "A"] := by
  constructor
  · rfl
  · decide

/-- C5 amended: the key set of the batch result always contains every
requested LEI (response bindings may add unrequested keys, so equality can
fail); a failed request maps every requested LEI to the empty result, and on
a processed body every requested LEI the response's bindings do not mention
looks up to the empty result. -/
theorem c5_batch_keys_amended :
    (∀ (resp : HttpOutcome) (leis : List String) (d : List (Json × Json)),
        query_wikidata_batch resp leis = .ok d →
        ∀ lei ∈ leis, jDictMem d (Json.str lei) = true) ∧
    (∀ leis : List String,
        query_wikidata_batch .transportError leis =
          .ok (emptyBatchDict leis)) ∧
    (∀ (leis : List String) (lei : String), lei ∈ leis →
        jDictFind (emptyBatchDict leis) (Json.str lei) = some emptyWdJson) ∧
    (∀ (data : Json) (leis : List String) (d : List (Json × Json))
        (lei : String),
        wikidataBatchFromData data leis = .ok d → lei ∈ leis →
        Json.str lei ∉ responseLeiValues data →
        jDictFind d (Json.str lei) = some emptyWdJson) := by
  refine ⟨?_, ?_, ?_, ?_⟩
  · intro resp leis d h lei hlei
    unfold query_wikidata_batch at h
    by_cases hl : leis = []
    · subst hl; cases hlei
    · rw [if_neg (by simp [hl])] at h
      cases resp with
      | transportError =>
        injection h with h
        subst h
        exact emptyBatchDict_mem leis lei hlei
      | response status body =>
        simp only [] at h
        by_cases hs : 400 ≤ status ∧ status < 600
        · rw [if_pos hs] at h
          injection h with h
          subst h
          exact emptyBatchDict_mem leis lei hlei
        · rw [if_neg hs] at h
          cases body with
          | none =>
            injection h with h
            subst h
            exact emptyBatchDict_mem leis lei hlei
          | some data =>
            cases hb : wikidataBatchFromData data leis with
            | ok d2 =>
              simp only [hb] at h
              injection h with h
              subst h
              exact batchFromData_mem data leis d2 hb lei hlei
            | error e =>
              cases e with
              | keyError =>
                simp only [hb] at h
                injection h with h
                subst h
                exact emptyBatchDict_mem leis lei hlei
              | valueError m => simp [hb] at h
              | indexError => simp [hb] at h
              | attributeError => simp [hb] at h
              | typeError => simp [hb] at h
  · intro leis
    unfold query_wikidata_batch
    by_cases hl : leis = []
    · rw [if_pos (by simp [hl])]
      simp [hl, emptyBatchDict]
    · rw [if_neg (by simp [hl])]
  · intro leis lei h
    exact emptyBatchDict_find leis lei h
  · intro data leis d lei h hmem habs
    unfold wikidataBatchFromData at h
    cases h1 : data.dictGet "results" (.obj []) with
    | error e => simp [h1, Bind.bind, Except.bind] at h
    | ok results =>
      cases h2 : results.dictGet "bindings" (.arr []) with
      | error e => simp [h1, h2, Bind.bind, Except.bind] at h
      | ok bindingsJ =>
        cases h3 : bindingsJ.iter with
        | error e => simp [h1, h2, h3, Bind.bind, Except.bind] at h
        | ok bindings =>
          cases h4 : bindings.foldlM batchBindingStep
              ([] : List (Json × Json)) with
          | error e => simp [h1, h2, h3, h4, Bind.bind, Except.bind] at h
          | ok res =>
            simp only [h1, h2, h3, h4, Bind.bind, Except.bind, Pure.pure,
              Except.pure] at h
            injection h with h
            subst h
            have habs' : Json.str lei ∉ bindingLeiVals bindings := by
              simpa [responseLeiValues, h1, h2, h3] using habs
            have hres : jDictMem res (Json.str lei) = false := by
              cases hb : jDictMem res (Json.str lei) with
              | false => rfl
              | true =>
                rcases batchFold_keys bindings [] res h4 (Json.str lei) hb with
                  h' | h'
                · simp [jDictMem] at h'
                · exact absurd h' habs'
            exact fillFold_find_absent leis res lei hmem hres

/-- C5 witness: the amended properties evaluated on the concrete response
with the unrequested binding key. -/
theorem c5_batch_keys_amended_witness :
    jDictMem c5Result (Json.str "A") = true ∧
    query_wikidata_batch .transportError ["A"] = .ok (emptyBatchDict ["A"]) ∧
    jDictFind (emptyBatchDict ["A"]) (Json.str "A") = some emptyWdJson ∧
    jDictFind c5Result (Json.str "A") = some emptyWdJson := by
  refine ⟨?_, ?_, ?_, ?_⟩
  · exact c5_batch_keys_amended.1 c5Resp ["A"] c5Result (by decide) "A"
      (by decide)
  · exact c5_batch_keys_amended.2.1 ["A"]
  · exact c5_batch_keys_amended.2.2.1 ["A"] "A" (by decide)
  · exact c5_batch_keys_amended.2.2.2 c5Data ["A"] c5Result "A" (by decide)
      (by decide) (by decide)

/-- C6 counterexample: the claim says the enrichment-client queries never
propagate an exception, including for malformed responses.  A response whose
JSON body is a top-level array (status 200, valid JSON) makes
`data.get("results", {})` raise `AttributeError`, which the `except
(RequestException, KeyError)` clause does not catch, so the exception
reaches the caller. -/
theorem c6_malformed_response_counterexample :
    query_wikidata (.response 200 (some c6ArrayBody)) =
      .error .attributeError := rfl

/-- C6 amended: on transport errors, non-success statuses, undecodable
bodies, and response bodies whose processing raises `KeyError`, the single
query returns the empty result and the batched query the all-empty
dictionary over the requested LEIs, and neither raises; only a body of the
wrong structural type escapes as an exception (see the counterexample). -/
theorem c6_degraded_failure_amended :
    (query_wikidata .transportError = .ok emptyWdJson) ∧
    (∀ (status : Nat) (body : Option Json), 400 ≤ status → status < 600 →
        query_wikidata (.response status body) = .ok emptyWdJson) ∧
    (∀ status : Nat, ¬(400 ≤ status ∧ status < 600) →
        query_wikidata (.response status none) = .ok emptyWdJson) ∧
    (∀ (status : Nat) (data : Json), ¬(400 ≤ status ∧ status < 600) →
        wikidataFromData data = .error .keyError →
        query_wikidata (.response status (some data)) = .ok emptyWdJson) ∧
    (∀ leis : List String,
        query_wikidata_batch .transportError leis = .ok (emptyBatchDict leis)) ∧
    (∀ (status : Nat) (body : Option Json) (leis : List String),
        400 ≤ status → status < 600 →
        query_wikidata_batch (.response status body) leis =
          .ok (emptyBatchDict leis)) ∧
    (∀ (status : Nat) (leis : List String), ¬(400 ≤ status ∧ status < 600) →
        query_wikidata_batch (.response status none) leis =
          .ok (emptyBatchDict leis)) ∧
    (∀ (status : Nat) (data : Json) (leis : List String),
        ¬(400 ≤ status ∧ status < 600) →
        wikidataBatchFromData data leis = .error .keyError →
        query_wikidata_batch (.response status (some data)) leis =
          .ok (emptyBatchDict leis)) := by
  refine ⟨rfl, ?_, ?_, ?_, ?_, ?_, ?_, ?_⟩
  · intro status body h1 h2
    simp [query_wikidata, h1, h2]
  · intro status h
    simp [query_wikidata, h]
  · intro status data h hkey
    simp [query_wikidata, h, hkey]
  · intro leis
    by_cases h : leis = []
    · simp [query_wikidata_batch, h, emptyBatchDict]
    · simp [query_wikidata_batch, h]
  · intro status body leis h1 h2
    by_cases h : leis = []
    · simp [query_wikidata_batch, h, emptyBatchDict]
    · simp [query_wikidata_batch, h, h1, h2]
  · intro status leis h
    by_cases hl : leis = []
    · simp [query_wikidata_batch, hl, emptyBatchDict]
    · simp [query_wikidata_batch, hl, h]
  · intro status data leis h hkey
    by_cases hl : leis = []
    · simp [query_wikidata_batch, hl, emptyBatchDict]
    · simp [query_wikidata_batch, hl, h, hkey]

/-- C6 witness: the degraded failure modes evaluated concretely — an HTTP
500, a single-query body whose binding lacks the `value` key, and a batch
body with the same defect. -/
theorem c6_degraded_failure_amended_witness :
    query_wikidata (.response 500 none) = .ok emptyWdJson ∧
    query_wikidata (.response 200 (some c6KeyErrData)) = .ok emptyWdJson ∧
    query_wikidata_batch (.response 200 (some c6BatchKeyErrData)) ["A"] =
      .ok (emptyBatchDict ["A"]) := by
  refine ⟨?_, ?_, ?_⟩
  · exact c6_degraded_failure_amended.2.1 500 none (by decide) (by decide)
  · exact c6_degraded_failure_amended.2.2.2.1 200 c6KeyErrData (by decide) rfl
  · exact c6_degraded_failure_amended.2.2.2.2.2.2.2 200 c6BatchKeyErrData
      ["A"] (by decide) rfl

/-- C10: `Company.from_row` on a full database row never raises because of
the `sector_labels` value: an undecodable JSON string and SQL NULL both
produce an empty label list. -/
theorem c10_from_row_sector_labels :
    ∀ (loads : String → Option (List String))
      (lei rs es ln ci co ca de raw : SqlValue),
      (∃ c, Company.from_row loads (fullRow lei rs es ln ci co ca de raw) =
            .ok c) ∧
      (raw = .null →
        ∀ c, Company.from_row loads (fullRow lei rs es ln ci co ca de raw) =
              .ok c → c.sector_labels = []) ∧
      (∀ s, raw = .text s → loads s = none →
        ∀ c, Company.from_row loads (fullRow lei rs es ln ci co ca de raw) =
              .ok c → c.sector_labels = []) := by
  intro loads lei rs es ln ci co ca de raw
  have hval : Company.from_row loads (fullRow lei rs es ln ci co ca de raw) =
      .ok { lei := lei.asStr, registration_status := rs.asStr,
            entity_status := es.asStr, legal_name := ln.asStr,
            city := ci.asStr, country := co.asStr, category := ca.asStr,
            description := de.asStr,
            sector_labels :=
              match raw with
              | .text s => match loads s with | some l => l | none => []
              | .null => [] } := rfl
  refine ⟨⟨_, hval⟩, ?_, ?_⟩
  · rintro rfl c hc
    rw [hval] at hc
    injection hc with h
    rw [← h]
  · rintro s rfl hl c hc
    rw [hval] at hc
    injection hc with h
    rw [← h]
    simp [hl]

/-- C10 witness: the row with an undecodable `sector_labels` string,
evaluated concretely. -/
theorem c10_from_row_sector_labels_witness :
    c10Company.sector_labels = [] ∧
    (∃ c, Company.from_row loadsNone c10Row = .ok c) := by
  refine ⟨?_, ?_⟩
  · exact (c10_from_row_sector_labels loadsNone (.text "LEI_TEST")
      (.text "ISSUED") (.text "ACTIVE") (.text "Test Co") (.text "Zurich")
      (.text "CH") (.text "Finance") .null (.text "not json")).2.2
      "not json" rfl rfl c10Company rfl
  · exact (c10_from_row_sector_labels loadsNone (.text "LEI_TEST")
      (.text "ISSUED") (.text "ACTIVE") (.text "Test Co") (.text "Zurich")
      (.text "CH") (.text "Finance") .null (.text "not json")).1

end CompanyMatcher
